import Mathlib

/-!
Shallow embedding of the clause-analysis engine of `contract-analyzer-ui`
(`src/app.py`, `analyze_legal_clause_enhanced`, together with the
near-duplicate variant in `src/api/index.py` and the gap-detection part of
`src/simple_gradio_app.py`, `analyze_legal_clause`).

Texts are modelled as `List Char`.  Python's `str.lower()` is modelled by
`Char.toLower` (the two agree on the ASCII range, which covers every
catalog keyword).  Python's truthiness test together with `str.strip()`
(`not clause_text or not clause_text.strip()`) is modelled as "every
character is ASCII whitespace" (vacuously true for the empty text).

The regular expressions in the high-risk catalog are all alternations of
chains `L1.*L2.*...*Lk` of literal substrings, so each pattern is embedded
as a `List` of chains, each chain a `List` of literals.  `re.search`
existence semantics: a chain matches if its literals occur in order, each
gap after the first literal consisting of non-newline characters only
(Python's `.` does not match a newline), with the scan start unconstrained.
The matcher is written with an explicit fuel argument so that it is
structurally recursive (hence kernel-computable); `lits.length + s.length`
steps always suffice, because every recursive call strictly decreases that
sum.

Python's severity average `sum(...) / len(...)` is float division; for the
weight sums (≤ 4 per entry, at most 13 entries) every comparison against
the literals `3`, `2.5`, `1.5` coincides with the exact rational
comparison (IEEE division is correctly rounded and all quantities are far
from the thresholds relative to the rounding error), so the average is
modelled in `ℚ`.

Findings carry the fields the analysis logic reads (`issue`, `riskLevel`);
the remaining fields of a finding (`description`, `plainEnglish`,
`recommendation`) are fixed per-entry strings copied verbatim from the
catalog and never inspected, so they are not repeated here.  The
`risk_scores` dict of the source is keyed by the ambiguous term / pattern
name; those keys are pairwise distinct across the whole catalog, so its
value multiset is exactly the list of weights of the matched entries, in
match order.
-/

namespace ContractAnalyzer

/-- The four severity labels `'LOW' | 'MEDIUM' | 'HIGH' | 'CRITICAL'`. -/
inductive Severity where
  | LOW
  | MEDIUM
  | HIGH
  | CRITICAL
deriving DecidableEq, Repr

/-- Numeric rank of a severity label, ordering LOW < MEDIUM < HIGH < CRITICAL. -/
def Severity.rank : Severity → Nat
  | .LOW => 0
  | .MEDIUM => 1
  | .HIGH => 2
  | .CRITICAL => 3

/-- The lookup `['LOW', 'MEDIUM', 'HIGH', 'CRITICAL'][min(risk, 3)]` from the source. -/
def riskLevelOfWeight (w : Nat) : Severity :=
  match min w 3 with
  | 0 => .LOW
  | 1 => .MEDIUM
  | 2 => .HIGH
  | _ => .CRITICAL

/-- ASCII whitespace, the characters removed by Python's `str.strip()`
(restricted to the ASCII range). -/
def isPyWhitespace (c : Char) : Bool :=
  c == ' ' || c == '\t' || c == '\n' || c == '\r' || c == '\x0b' || c == '\x0c'

/-- Test `not clause_text or not clause_text.strip()`: the text is empty or
consists of whitespace only. -/
def isBlankText (s : List Char) : Bool :=
  s.all isPyWhitespace

/-- Lowering `clause_text.lower()` (modelled on the ASCII range). -/
def lowerText (s : List Char) : List Char :=
  s.map Char.toLower

/-- Boolean prefix test used by the substring scan. -/
def isPrefixOfB : List Char → List Char → Bool
  | [], _ => true
  | _ :: _, [] => false
  | a :: as, b :: bs => a == b && isPrefixOfB as bs

/-- Python's `needle in haystack`: `needle` occurs as a contiguous
substring of `haystack`. -/
def containsSub (needle : List Char) : List Char → Bool
  | [] => isPrefixOfB needle []
  | c :: cs => isPrefixOfB needle (c :: cs) || containsSub needle cs

/-- Test `any(term in clause_lower for term in kws)`. -/
def anyContains (kws : List (List Char)) (t : List Char) : Bool :=
  kws.any (fun k => containsSub k t)

/-- One step-indexed search for a chain of literals `L1.*L2.*...*Lk` in `s`
(`re.search` existence semantics).  `gapAll = true` while scanning for the
start of the first literal (any character may be skipped); afterwards only
non-newline characters may be skipped, because `.` does not match `'\n'`.
The fuel only bounds the recursion; `lits.length + s.length` steps always
suffice (each call drops a literal or a character). -/
def chainSearchF : Nat → Bool → List (List Char) → List Char → Bool
  | 0, _, lits, _ => lits.isEmpty
  | _ + 1, _, [], _ => true
  | fuel + 1, gapAll, lit :: rest, s =>
    (isPrefixOfB lit s && chainSearchF fuel false rest (s.drop lit.length)) ||
    (match s with
     | [] => false
     | c :: cs => (gapAll || !(c == '\n')) && chainSearchF fuel gapAll (lit :: rest) cs)

/-- Search for a chain of literals anywhere in `s`. -/
def chainSearch (lits : List (List Char)) (s : List Char) : Bool :=
  chainSearchF (lits.length + s.length) true lits s

/-- Search `re.search(pattern, s)` for a pattern that is an alternation of literal
chains. -/
def regexSearch (chains : List (List (List Char))) (s : List Char) : Bool :=
  chains.any (fun ch => chainSearch ch s)

/-- An entry of the `ambiguous_patterns` dict: the literal term and its
`'risk'` weight. -/
structure AmbEntry where
  term : List Char
  risk : Nat
deriving DecidableEq, Repr

/-- An entry of the `high_risk_patterns` list: the `'name'`, the regex
(as an alternation of literal chains) and the `'risk'` weight. -/
structure RiskEntry where
  name : String
  pattern : List (List (List Char))
  risk : Nat
deriving DecidableEq, Repr

/-- Entry `'reasonable'` of the `ambiguous_patterns` dict. -/
def ambReasonable : AmbEntry := { term := "reasonable".toList, risk := 2 }

/-- Entry `'material'` of the `ambiguous_patterns` dict. -/
def ambMaterial : AmbEntry := { term := "material".toList, risk := 2 }

/-- Entry `'best efforts'` of the `ambiguous_patterns` dict. -/
def ambBestEfforts : AmbEntry := { term := "best efforts".toList, risk := 3 }

/-- Entry `'timely'` of the `ambiguous_patterns` dict. -/
def ambTimely : AmbEntry := { term := "timely".toList, risk := 2 }

/-- Entry `'professional manner'` of the `ambiguous_patterns` dict. -/
def ambProfessionalManner : AmbEntry := { term := "professional manner".toList, risk := 1 }

/-- The `ambiguous_patterns` dict of `src/app.py`, in insertion order. -/
def ambiguousPatterns : List AmbEntry :=
  [ambReasonable, ambMaterial, ambBestEfforts, ambTimely, ambProfessionalManner]

/-- First entry of `high_risk_patterns`: the regex
`unlimited liability|any and all damages|no limitation.*liability|liable.*all.*damages`
with weight 4. -/
def riskUnlimitedLiability : RiskEntry :=
  { name := "Unlimited liability exposure",
      pattern := [ [r"unlimited liability".toList],
                   [r"any and all damages".toList],
                   [r"no limitation".toList, r"liability".toList],
                   [r"liable".toList, r"all".toList, r"damages".toList] ],
      risk := 4 }

/-- Second entry of `high_risk_patterns`:
`irrevocably.*assign|irrevocable.*assignment`, weight 3. -/
def riskIrrevocableAssignment : RiskEntry :=
  { name := "Irrevocable assignment",
    pattern := [ [r"irrevocably".toList, r"assign".toList],
                 [r"irrevocable".toList, r"assignment".toList] ],
    risk := 3 }

/-- Third entry of `high_risk_patterns`:
`perpetuity|throughout.*universe|forever`, weight 3. -/
def riskUnlimitedDuration : RiskEntry :=
  { name := "Unlimited duration",
    pattern := [ [r"perpetuity".toList],
                 [r"throughout".toList, r"universe".toList],
                 [r"forever".toList] ],
    risk := 3 }

/-- Fourth entry of `high_risk_patterns`: `cayman.*law|cayman islands`,
weight 3. -/
def riskOffshoreJurisdiction : RiskEntry :=
  { name := "Offshore jurisdiction",
    pattern := [ [r"cayman".toList, r"law".toList],
                 [r"cayman islands".toList] ],
    risk := 3 }

/-- Fifth entry of `high_risk_patterns`:
`class action.*waiver|waiving.*class action`, weight 2. -/
def riskClassActionWaiver : RiskEntry :=
  { name := "Class action waiver",
    pattern := [ [r"class action".toList, r"waiver".toList],
                 [r"waiving".toList, r"class action".toList] ],
    risk := 2 }

/-- Sixth entry of `high_risk_patterns`: `waiver.*audit|waiving.*audit`,
weight 3. -/
def riskAuditWaiver : RiskEntry :=
  { name := "Audit rights waiver",
    pattern := [ [r"waiver".toList, r"audit".toList],
                 [r"waiving".toList, r"audit".toList] ],
    risk := 3 }

/-- Seventh entry of `high_risk_patterns`:
`terminate.*immediately.*without|immediate.*termination.*without`, weight 2. -/
def riskImmediateTermination : RiskEntry :=
  { name := "Immediate termination without notice",
    pattern := [ [r"terminate".toList, r"immediately".toList, r"without".toList],
                 [r"immediate".toList, r"termination".toList, r"without".toList] ],
    risk := 2 }

/-- Eighth entry of `high_risk_patterns`:
`indemnify.*harmless|hold.*harmless`, weight 3. -/
def riskBroadIndemnification : RiskEntry :=
  { name := "Broad indemnification",
    pattern := [ [r"indemnify".toList, r"harmless".toList],
                 [r"hold".toList, r"harmless".toList] ],
    risk := 3 }

/-- The `high_risk_patterns` list of `src/app.py`, in order.  Each regex
`A.*B|C` is transcribed as its list of literal chains. -/
def highRiskPatterns : List RiskEntry :=
  [riskUnlimitedLiability, riskIrrevocableAssignment, riskUnlimitedDuration,
   riskOffshoreJurisdiction, riskClassActionWaiver, riskAuditWaiver,
   riskImmediateTermination, riskBroadIndemnification]

/-- A finding appended to `ambiguities` / `risks`.  Only the fields the
analysis logic reads are carried; the other three fields are fixed strings
copied from the matching catalog entry. -/
structure Finding where
  issue : String
  riskLevel : Severity
deriving DecidableEq, Repr

/-- An entry appended to `missing_protections`; only `'element'` is ever
inspected, the other fields are fixed strings. -/
structure MissingProtection where
  element : String
deriving DecidableEq, Repr

/-- The ambiguous-term entries whose term occurs in the lowered text, in
catalog order (the `for term, details in ambiguous_patterns.items()` loop
keeps insertion order). -/
def ambMatches (t : List Char) : List AmbEntry :=
  ambiguousPatterns.filter (fun e => containsSub e.term t)

/-- The high-risk entries whose regex fires on the lowered text, in order. -/
def riskMatches (t : List Char) : List RiskEntry :=
  highRiskPatterns.filter (fun e => regexSearch e.pattern t)

/-- Finding with issue text built from the term, and the level from the
lookup table. -/
def mkAmbFinding (e : AmbEntry) : Finding :=
  { issue := "Ambiguous term: \"" ++ String.mk e.term ++ "\"",
    riskLevel := riskLevelOfWeight e.risk }

/-- Finding with issue text built from the pattern name, and the level from
the lookup table. -/
def mkRiskFinding (e : RiskEntry) : Finding :=
  { issue := "High-risk clause: " ++ e.name,
    riskLevel := riskLevelOfWeight e.risk }

/-- The `ambiguities` list built by the first matching loop. -/
def ambFindings (t : List Char) : List Finding :=
  (ambMatches t).map mkAmbFinding

/-- The `risks` list built by the second matching loop. -/
def riskFindings (t : List Char) : List Finding :=
  (riskMatches t).map mkRiskFinding

/-- The values of the `risk_scores` dict.  Its keys (ambiguous terms and
pattern names) are pairwise distinct across the catalog and each entry
fires at most once, so the values are exactly the weights of the matched
entries, in insertion order. -/
def riskWeights (t : List Char) : List Nat :=
  (ambMatches t).map AmbEntry.risk ++ (riskMatches t).map RiskEntry.risk

/-- The severity aggregation of `src/app.py` lines 164-178: with
`risk_scores` non-empty, `max_risk = max(values)`,
`avg_risk = sum(values) / len(values)`, then the staged thresholds. -/
def overallSeverity : List Nat → Severity
  | [] => .LOW
  | w :: rest =>
    let maxRisk : Nat := (w :: rest).foldr max 0
    let avgRisk : ℚ := ((w :: rest).sum : ℚ) / ((w :: rest).length : ℚ)
    if 4 ≤ maxRisk ∨ 3 ≤ avgRisk then .CRITICAL
    else if 3 ≤ maxRisk ∨ (5 : ℚ) / 2 ≤ avgRisk then .HIGH
    else if 2 ≤ maxRisk ∨ (3 : ℚ) / 2 ≤ avgRisk then .MEDIUM
    else .LOW

/-- Keyword set of the Employment branch of the contract-type chain. -/
def employmentKeywords : List (List Char) :=
  [r"employment", r"employee", r"employer", r"salary", r"benefits"].map String.toList

/-- Keyword set of the Service branch of the contract-type chain. -/
def serviceKeywords : List (List Char) :=
  [r"service", r"contractor", r"deliverable", r"statement of work"].map String.toList

/-- Keyword set of the NDA branch of the contract-type chain. -/
def ndaKeywords : List (List Char) :=
  [r"confidential", r"non-disclosure", r"proprietary"].map String.toList

/-- Keyword set of the License branch of the contract-type chain. -/
def licenseKeywords : List (List Char) :=
  [r"license", r"intellectual property", r"software", r"patent"].map String.toList

/-- Keyword set of the Purchase branch of the contract-type chain. -/
def purchaseKeywords : List (List Char) :=
  [r"purchase", r"sale", r"goods", r"product"].map String.toList

/-- The contract-type chain of `src/app.py` lines 151-162
(`if ... elif ... elif ... elif ... elif ... else keep default`). -/
def contractType (t : List Char) : String :=
  if anyContains employmentKeywords t then "Employment Agreement"
  else if anyContains serviceKeywords t then "Service Agreement"
  else if anyContains ndaKeywords t then "Non-Disclosure Agreement"
  else if anyContains licenseKeywords t then "License Agreement"
  else if anyContains purchaseKeywords t then "Purchase Agreement"
  else "General Contract"

/-- The governing-law keyword group of the gap detector. -/
def govLawKeywords : List (List Char) :=
  [r"governing law", r"applicable law"].map String.toList

/-- The dispute-resolution keyword group of the gap detector. -/
def disputeKeywords : List (List Char) :=
  [r"dispute", r"arbitration", r"litigation"].map String.toList

/-- The liability-limiting keyword group of the conditional gap check. -/
def limitKeywords : List (List Char) :=
  [r"limit", r"cap", r"exclude"].map String.toList

/-- The trigger word of the conditional liability gap check. -/
def liabilityWord : List Char := "liability".toList

/-- The `missing_protections` list of `src/app.py` lines 197-221, before
the `[:3]` truncation: two unconditional keyword-group checks plus the
liability check that is conditional on the word `liability` being
present. -/
def missingProtectionsAll (t : List Char) : List MissingProtection :=
  (if anyContains govLawKeywords t
   then []
   else [{ element := "Governing Law Clause" }]) ++
  (if anyContains disputeKeywords t
   then []
   else [{ element := "Dispute Resolution Mechanism" }]) ++
  (if containsSub liabilityWord t && !(anyContains limitKeywords t)
   then [{ element := "Liability Limitations" }]
   else [])

/-- Summary section of the report (the fields with decision content). -/
structure Summary where
  contractType : String
  overallSeverity : Severity
  totalIssues : Nat
deriving DecidableEq, Repr

/-- Detailed analysis together with the summary: the report fields the
claims are about.  The remaining report sections (`recommendations`,
`plainEnglishExplanation`, `legalReferences`, `metadata`) are fixed-text
assembly from these same lists and from the wall clock. -/
structure Report where
  summary : Summary
  ambiguities : List Finding
  risks : List Finding
  missingProtections : List MissingProtection
deriving DecidableEq, Repr

/-- Result of one call: the validation-error object (whose sole field is
the message) or a report. -/
inductive AnalysisResult where
  | error (msg : String)
  | ok (r : Report)
deriving DecidableEq, Repr

/-- The validation-error message of the empty-input path. -/
def emptyInputMsg : String := "Please provide a clause to analyze"

/-- The report assembled by the non-error path of
`analyze_legal_clause_enhanced` over `clause_lower = clause_text.lower()`:
matching, classification, severity aggregation, gap detection. -/
def buildReport (s : List Char) : Report :=
  { summary :=
      { contractType := contractType (lowerText s),
        overallSeverity := overallSeverity (riskWeights (lowerText s)),
        totalIssues :=
          (ambFindings (lowerText s)).length + (riskFindings (lowerText s)).length },
    ambiguities := ambFindings (lowerText s),
    risks := riskFindings (lowerText s),
    missingProtections := (missingProtectionsAll (lowerText s)).take 3 }

/-- Function `analyze_legal_clause_enhanced` of `src/app.py`: blank-input
check, then the report of `buildReport`.  The `try/except` wrapper is not
modelled: no step of the embedded pipeline can raise. -/
def analyze (s : List Char) : AnalysisResult :=
  if isBlankText s then .error emptyInputMsg
  else .ok (buildReport s)

/-- The amendment keyword group of the gap detector of
`src/simple_gradio_app.py`. -/
def amendmentKeywords : List (List Char) :=
  [r"amendment", r"modification"].map String.toList

/-- The missing-elements list `detected_missing` of `src/simple_gradio_app.py`
(`analyze_legal_clause`), before the `[:4]` truncation: the four
content-triggered appends followed by the three keyword-group absence
checks (governing law, dispute resolution, amendment procedures). -/
def detectedMissing (t : List Char) : List String :=
  (if containsSub (r"confidential".toList) t
   then [r"Confidentiality carve-outs for publicly available information"]
   else []) ++
  (if containsSub (r"terminate".toList) t || containsSub (r"termination".toList) t
   then [r"Post-termination obligations and survival clauses"]
   else []) ++
  (if containsSub (r"intellectual property".toList) t || containsSub (r" ip ".toList) t
   then [r"IP indemnification and warranty provisions"]
   else []) ++
  (if containsSub (r"dispute".toList) t || containsSub (r"arbitration".toList) t
   then [r"Choice of law and venue provisions"]
   else []) ++
  (if anyContains govLawKeywords t
   then []
   else [r"Governing law clause"]) ++
  (if anyContains disputeKeywords t
   then []
   else [r"Dispute resolution mechanism"]) ++
  (if anyContains amendmentKeywords t
   then []
   else [r"Contract amendment procedures"])

/-!  Specification-side definitions.  The following definitions are written
from the words of the specification (not from the source); each theorem
comparing one of them with the source-derived definitions is a refinement
statement. -/

/-- The lookup table `[LOW, MEDIUM, HIGH, CRITICAL]` named by the spec's
rule `riskLevel = table[min(riskWeight, 3)]`. -/
def severityTable : List Severity :=
  [Severity.LOW, Severity.MEDIUM, Severity.HIGH, Severity.CRITICAL]

/-- Severity aggregation as the specification words it: if no pattern
matched, LOW; otherwise `maxRisk` the maximum weight and `avgRisk` the
arithmetic mean, classified by the ordered threshold rules, first match
wins. -/
def severitySpec (ws : List Nat) : Severity :=
  match ws.max? with
  | none => Severity.LOW
  | some maxRisk =>
    if 4 ≤ maxRisk ∨ 3 ≤ (ws.sum : ℚ) / (ws.length : ℚ) then Severity.CRITICAL
    else if 3 ≤ maxRisk ∨ (5 : ℚ) / 2 ≤ (ws.sum : ℚ) / (ws.length : ℚ) then Severity.HIGH
    else if 2 ≤ maxRisk ∨ (3 : ℚ) / 2 ≤ (ws.sum : ℚ) / (ws.length : ℚ) then Severity.MEDIUM
    else Severity.LOW

/-- The ordered category table of the classifier as the specification words
it: Employment → Service → NDA → License → Purchase. -/
def categoryTable : List (String × List (List Char)) :=
  [ (r"Employment Agreement", employmentKeywords),
    (r"Service Agreement", serviceKeywords),
    (r"Non-Disclosure Agreement", ndaKeywords),
    (r"License Agreement", licenseKeywords),
    (r"Purchase Agreement", purchaseKeywords) ]

/-- The classifier as the specification words it: the first category of the
ordered table any of whose keywords occurs as a substring, else the
default label. -/
def contractTypeSpec (t : List Char) : String :=
  match categoryTable.find? (fun c => anyContains c.2 t) with
  | some c => c.1
  | none => "General Contract"

/-- The severability keyword group named by the spec's gap-detector list.
No source implementation tests these keywords. -/
def severabilityKeywords : List (List Char) :=
  [r"severability", r"severable"].map String.toList

/-- The entire-agreement / integration keyword group named by the spec's
gap-detector list.  No source implementation tests these keywords. -/
def integrationKeywords : List (List Char) :=
  [r"entire agreement", r"integration"].map String.toList

/-!  Concrete inputs used by witnesses and counterexamples. -/

/-- A clause text with no catalog keyword at all. -/
def helloInput : List Char := "hello".toList

/-- A clause text containing the literal `unlimited liability`. -/
def unlimitedLiabilityInput : List Char := "unlimited liability".toList

/-- A clause text containing the ambiguous term `best efforts`. -/
def bestEffortsInput : List Char := "best efforts".toList

/-- A clause text containing `liability` and no liability-limiting word. -/
def liabilityInput : List Char := "liability".toList

/-- A clause text containing the ambiguous term `reasonable`. -/
def reasonableInput : List Char := "reasonable".toList

/-!  Helper lemmas. -/

/-- An empty chain of literals matches any text, whatever the fuel. -/
theorem chainSearchF_nil (fuel : Nat) (g : Bool) (s : List Char) :
    chainSearchF fuel g [] s = true := by
  cases fuel <;> rfl

/-- With enough fuel, a one-literal chain fires on any text that contains
the literal as a substring (the literal alternatives of the catalog
regexes behave as plain substring tests). -/
theorem chainSearchF_of_containsSub (lit : List Char) (s : List Char) (fuel : Nat)
    (hf : s.length < fuel) (h : containsSub lit s = true) :
    chainSearchF fuel true [lit] s = true := by
  induction s generalizing fuel with
  | nil =>
    cases fuel with
    | zero => omega
    | succ f =>
      simp only [containsSub] at h
      simp only [chainSearchF, h, Bool.true_and, chainSearchF_nil, Bool.or_eq_true]
      exact Or.inl trivial
  | cons c cs ih =>
    cases fuel with
    | zero => omega
    | succ f =>
      simp only [containsSub, Bool.or_eq_true] at h
      simp only [chainSearchF, Bool.or_eq_true, Bool.and_eq_true, Bool.true_or]
      rcases h with h | h
      · exact Or.inl ⟨h, chainSearchF_nil _ _ _⟩
      · refine Or.inr ⟨trivial, ?_⟩
        exact ih f (Nat.lt_of_succ_lt_succ hf) h

/-- A one-literal chain fires on any text containing the literal. -/
theorem chainSearch_of_containsSub (lit : List Char) (s : List Char)
    (h : containsSub lit s = true) :
    chainSearch [lit] s = true :=
  chainSearchF_of_containsSub lit s _ (by simp [Nat.lt_succ_iff]) h

/-- Folding `max` from an accumulator equals taking `max` with the fold
from `0`. -/
theorem foldl_max_eq (rest : List Nat) :
    ∀ w : Nat, rest.foldl max w = max w (rest.foldr max 0) := by
  induction rest with
  | nil => intro w; simp
  | cons c cs ih =>
    intro w
    simp only [List.foldl, List.foldr, ih (max w c)]
    omega

/-- The maximum of a non-empty list of weights, as `List.max?` returns it,
is the `foldr max 0` the aggregation uses. -/
theorem max?_cons_eq_foldr (w : Nat) (rest : List Nat) :
    (w :: rest).max? = some ((w :: rest).foldr max 0) := by
  simp only [List.max?, foldl_max_eq, List.foldr]

/-- The aggregation of the source equals the aggregation as the spec words
it. -/
theorem overallSeverity_eq_spec (ws : List Nat) :
    overallSeverity ws = severitySpec ws := by
  cases ws with
  | nil => rfl
  | cons w rest =>
    simp only [overallSeverity, severitySpec, max?_cons_eq_foldr]

/-- Folding `max` over an append splits at the append. -/
theorem foldr_max_append (pre l : List Nat) :
    (pre ++ l).foldr max 0 = max (pre.foldr max 0) (l.foldr max 0) := by
  induction pre with
  | nil => simp
  | cons c cs ih => simp only [List.cons_append, List.foldr_cons, ih]; omega

/-- The staged max/average thresholds are monotone: with the same number
of findings, a pointwise bound on the maximum and on the sum of the
weights bounds the resulting severity. -/
theorem overallSeverity_mono (a b : List Nat) (hne : a ≠ [])
    (hlen : a.length = b.length)
    (hmax : a.foldr max 0 ≤ b.foldr max 0)
    (hsum : a.sum ≤ b.sum) :
    (overallSeverity a).rank ≤ (overallSeverity b).rank := by
  cases a with
  | nil => exact absurd rfl hne
  | cons w rest =>
    cases b with
    | nil => simp at hlen
    | cons v m =>
      have hn : (0 : ℚ) < (((w :: rest).length : Nat) : ℚ) := by
        exact_mod_cast Nat.succ_pos rest.length
      have hlenQ : (((w :: rest).length : Nat) : ℚ) = (((v :: m).length : Nat) : ℚ) := by
        exact_mod_cast hlen
      have havg : ((w :: rest).sum : ℚ) / (((w :: rest).length : Nat) : ℚ) ≤
          ((v :: m).sum : ℚ) / (((v :: m).length : Nat) : ℚ) := by
        rw [← hlenQ]
        exact div_le_div_of_nonneg_right (by exact_mod_cast hsum) hn.le
      simp only [overallSeverity]
      split_ifs <;> simp only [Severity.rank] <;> try omega
      all_goals
        exfalso
        try push_neg at *
        casesm* _ ∨ _, _ ∧ _
        all_goals try omega
        all_goals linarith

/-- A non-blank input always takes the report path. -/
theorem analyze_ok (s : List Char) (h : isBlankText s = false) :
    analyze s = AnalysisResult.ok (buildReport s) := by
  simp [analyze, h]

/-- The level computed by `riskLevelOfWeight` is the claim's table lookup
at index `min w 3`. -/
theorem riskLevelOfWeight_eq_table (w : Nat) :
    riskLevelOfWeight w = severityTable.getD (min w 3) Severity.LOW := by
  match w with
  | 0 => rfl
  | 1 => rfl
  | 2 => rfl
  | n + 3 =>
    have h : min (n + 3) 3 = 3 := by omega
    simp [riskLevelOfWeight, severityTable, h]

/-!  Claim theorems. -/

/-- C1: for every non-empty, non-whitespace clause text, the overall
severity returned by `analyze` is computed from the multiset of riskWeight
values of all matched findings by the ordered threshold rules on the
maximum and the arithmetic mean of the weights (first matching rule wins),
LOW when nothing matched. -/
theorem analyze_overall_severity_c1 (s : List Char) (h : isBlankText s = false) :
    ∃ r, analyze s = AnalysisResult.ok r ∧
      r.summary.overallSeverity = severitySpec (riskWeights (lowerText s)) :=
  ⟨buildReport s, analyze_ok s h, overallSeverity_eq_spec _⟩

/-- Witness for C1 at the concrete input `best efforts`. -/
theorem analyze_overall_severity_c1_witness :
    isBlankText bestEffortsInput = false ∧
    ∃ r, analyze bestEffortsInput = AnalysisResult.ok r ∧
      r.summary.overallSeverity = severitySpec (riskWeights (lowerText bestEffortsInput)) :=
  ⟨by decide, analyze_overall_severity_c1 bestEffortsInput (by decide)⟩

/-- C2: severity aggregation is monotone: replacing one weight of the
multiset by a strictly larger weight, with the number of findings and the
other weights fixed, never decreases the overall severity, under the
ordering LOW < MEDIUM < HIGH < CRITICAL. -/
theorem severity_monotonic_c2 (pre suf : List Nat) (w w' : Nat) (h : w < w') :
    (overallSeverity (pre ++ w :: suf)).rank ≤
      (overallSeverity (pre ++ w' :: suf)).rank := by
  apply overallSeverity_mono
  · simp
  · simp
  · rw [foldr_max_append, foldr_max_append]
    simp only [List.foldr_cons]
    omega
  · simp only [List.sum_append, List.sum_cons]
    omega

/-- Witness for C2: raising the middle weight 2 of `[2, 2, 1]` to 4. -/
theorem severity_monotonic_c2_witness :
    2 < 4 ∧
    (overallSeverity ([2] ++ 2 :: [1])).rank ≤
      (overallSeverity ([2] ++ 4 :: [1])).rank :=
  ⟨by decide, severity_monotonic_c2 [2] [1] 2 4 (by decide)⟩

/-- C3: an input that is empty or whitespace-only yields exactly the
validation-error object carrying the message
`Please provide a clause to analyze`, and this is the engine's only
validation-error path: any other input yields a report, never that
object. -/
theorem empty_input_error_c3 (s : List Char) :
    analyze s = AnalysisResult.error emptyInputMsg ↔ isBlankText s = true := by
  by_cases h : isBlankText s = true
  · simp [analyze, h]
  · simp only [Bool.not_eq_true] at h
    simp [analyze, h]

/-- Either literal alternative of the unlimited-liability regex fires the
pattern. -/
theorem regexSearch_unlimited (t : List Char)
    (hc : containsSub (r"unlimited liability".toList) t = true ∨
          containsSub (r"any and all damages".toList) t = true) :
    regexSearch riskUnlimitedLiability.pattern t = true := by
  simp only [regexSearch, riskUnlimitedLiability, List.any_cons, Bool.or_eq_true]
  rcases hc with hc | hc
  · exact Or.inl (chainSearch_of_containsSub _ _ hc)
  · exact Or.inr (Or.inl (chainSearch_of_containsSub _ _ hc))

/-- C4: every non-empty clause text whose lowercased form contains
`unlimited liability` or `any and all damages` gets a CRITICAL finding in
the report's risks (the weight-4 unlimited-liability pattern). -/
theorem unlimited_liability_critical_c4 (s : List Char)
    (h : isBlankText s = false)
    (hc : containsSub (r"unlimited liability".toList) (lowerText s) = true ∨
          containsSub (r"any and all damages".toList) (lowerText s) = true) :
    ∃ r, analyze s = AnalysisResult.ok r ∧
      ∃ f ∈ r.risks, f.riskLevel = Severity.CRITICAL := by
  refine ⟨buildReport s, analyze_ok s h, mkRiskFinding riskUnlimitedLiability, ?_, rfl⟩
  show mkRiskFinding riskUnlimitedLiability ∈ riskFindings (lowerText s)
  apply List.mem_map_of_mem
  exact List.mem_filter.mpr ⟨by simp [highRiskPatterns], regexSearch_unlimited _ hc⟩

/-- Witness for C4 at the concrete input `unlimited liability`. -/
theorem unlimited_liability_critical_c4_witness :
    isBlankText unlimitedLiabilityInput = false ∧
    containsSub (r"unlimited liability".toList) (lowerText unlimitedLiabilityInput) = true ∧
    ∃ r, analyze unlimitedLiabilityInput = AnalysisResult.ok r ∧
      ∃ f ∈ r.risks, f.riskLevel = Severity.CRITICAL :=
  ⟨by decide, by decide,
   unlimited_liability_critical_c4 unlimitedLiabilityInput (by decide) (Or.inl (by decide))⟩

/-- C5: every clause text containing `best efforts` (case-insensitively)
gets a finding for that term in the report's ambiguities whose riskLevel
is at least HIGH (it is CRITICAL: the term's weight is 3). -/
theorem best_efforts_high_c5 (s : List Char)
    (h : isBlankText s = false)
    (hc : containsSub (r"best efforts".toList) (lowerText s) = true) :
    ∃ r, analyze s = AnalysisResult.ok r ∧
      ∃ f ∈ r.ambiguities,
        f.issue = "Ambiguous term: \"best efforts\"" ∧
        (f.riskLevel = Severity.HIGH ∨ f.riskLevel = Severity.CRITICAL) := by
  refine ⟨buildReport s, analyze_ok s h, mkAmbFinding ambBestEfforts, ?_, rfl, Or.inr rfl⟩
  show mkAmbFinding ambBestEfforts ∈ ambFindings (lowerText s)
  apply List.mem_map_of_mem
  exact List.mem_filter.mpr ⟨by simp [ambiguousPatterns], hc⟩

/-- Witness for C5 at the concrete input `best efforts`. -/
theorem best_efforts_high_c5_witness :
    isBlankText bestEffortsInput = false ∧
    containsSub (r"best efforts".toList) (lowerText bestEffortsInput) = true ∧
    ∃ r, analyze bestEffortsInput = AnalysisResult.ok r ∧
      ∃ f ∈ r.ambiguities,
        f.issue = "Ambiguous term: \"best efforts\"" ∧
        (f.riskLevel = Severity.HIGH ∨ f.riskLevel = Severity.CRITICAL) :=
  ⟨by decide, by decide, best_efforts_high_c5 bestEffortsInput (by decide) (by decide)⟩

/-- C6: the classifier is total and first-match-wins over the ordered
category table Employment → Service → NDA → License → Purchase, with
default `General Contract` when no keyword of any category occurs. -/
theorem classifier_first_match_c6 (t : List Char) :
    contractType t = contractTypeSpec t := by
  unfold contractType contractTypeSpec categoryTable
  cases h1 : anyContains employmentKeywords t <;>
    cases h2 : anyContains serviceKeywords t <;>
      cases h3 : anyContains ndaKeywords t <;>
        cases h4 : anyContains licenseKeywords t <;>
          cases h5 : anyContains purchaseKeywords t <;>
            simp [List.find?, h1, h2, h3, h4, h5]

/-- C7: every finding produced by either matching loop derives from a
catalog entry that matched the lowered text, and its riskLevel is the
entry at index `min(riskWeight, 3)` of the table
`[LOW, MEDIUM, HIGH, CRITICAL]` for that entry's weight; the table maps
0 to LOW, 1 to MEDIUM, 2 to HIGH and every weight of 3 or more to
CRITICAL. -/
theorem finding_level_from_weight_c7 (s : List Char) (f : Finding)
    (hf : f ∈ ambFindings (lowerText s) ++ riskFindings (lowerText s)) :
    (∃ w : Nat,
      ((∃ e ∈ ambiguousPatterns, containsSub e.term (lowerText s) = true ∧ e.risk = w) ∨
       (∃ e ∈ highRiskPatterns, regexSearch e.pattern (lowerText s) = true ∧ e.risk = w)) ∧
      f.riskLevel = severityTable.getD (min w 3) Severity.LOW) ∧
    riskLevelOfWeight 0 = Severity.LOW ∧
    riskLevelOfWeight 1 = Severity.MEDIUM ∧
    riskLevelOfWeight 2 = Severity.HIGH ∧
    (∀ w, 3 ≤ w → riskLevelOfWeight w = Severity.CRITICAL) := by
  refine ⟨?_, rfl, rfl, rfl, ?_⟩
  · rcases List.mem_append.mp hf with hm | hm
    · obtain ⟨e, he, rfl⟩ := List.mem_map.mp hm
      obtain ⟨hmem, hpred⟩ := List.mem_filter.mp he
      exact ⟨e.risk, Or.inl ⟨e, hmem, by simpa using hpred, rfl⟩,
        riskLevelOfWeight_eq_table e.risk⟩
    · obtain ⟨e, he, rfl⟩ := List.mem_map.mp hm
      obtain ⟨hmem, hpred⟩ := List.mem_filter.mp he
      exact ⟨e.risk, Or.inr ⟨e, hmem, by simpa using hpred, rfl⟩,
        riskLevelOfWeight_eq_table e.risk⟩
  · intro w hw
    obtain ⟨n, rfl⟩ : ∃ n, w = n + 3 := ⟨w - 3, by omega⟩
    have h3 : min (n + 3) 3 = 3 := by omega
    simp [riskLevelOfWeight, h3]

/-- Witness for C7: the finding of the term `reasonable` on the input
`reasonable`. -/
theorem finding_level_from_weight_c7_witness :
    (mkAmbFinding ambReasonable ∈
      ambFindings (lowerText reasonableInput) ++ riskFindings (lowerText reasonableInput)) ∧
    ((∃ w : Nat,
      ((∃ e ∈ ambiguousPatterns,
          containsSub e.term (lowerText reasonableInput) = true ∧ e.risk = w) ∨
       (∃ e ∈ highRiskPatterns,
          regexSearch e.pattern (lowerText reasonableInput) = true ∧ e.risk = w)) ∧
      (mkAmbFinding ambReasonable).riskLevel = severityTable.getD (min w 3) Severity.LOW) ∧
    riskLevelOfWeight 0 = Severity.LOW ∧
    riskLevelOfWeight 1 = Severity.MEDIUM ∧
    riskLevelOfWeight 2 = Severity.HIGH ∧
    (∀ w, 3 ≤ w → riskLevelOfWeight w = Severity.CRITICAL)) :=
  ⟨by decide,
   finding_level_from_weight_c7 reasonableInput (mkAmbFinding ambReasonable) (by decide)⟩

/-- C8: a non-empty clause whose lowered text contains neither
`governing law` nor `applicable law` lists the Governing Law Clause among
the report's missingProtections; being appended first, it survives the
top-3 truncation. -/
theorem governing_law_gap_c8 (s : List Char)
    (h : isBlankText s = false)
    (hg : anyContains govLawKeywords (lowerText s) = false) :
    ∃ r, analyze s = AnalysisResult.ok r ∧
      ∃ m ∈ r.missingProtections, m.element = "Governing Law Clause" := by
  refine ⟨buildReport s, analyze_ok s h, { element := "Governing Law Clause" }, ?_, rfl⟩
  show _ ∈ (missingProtectionsAll (lowerText s)).take 3
  simp [missingProtectionsAll, hg]

/-- Witness for C8 at the concrete input `hello`. -/
theorem governing_law_gap_c8_witness :
    isBlankText helloInput = false ∧
    anyContains govLawKeywords (lowerText helloInput) = false ∧
    ∃ r, analyze helloInput = AnalysisResult.ok r ∧
      ∃ m ∈ r.missingProtections, m.element = "Governing Law Clause" :=
  ⟨by decide, by decide, governing_law_gap_c8 helloInput (by decide) (by decide)⟩

/-- The top-3 truncation of the missing-protections list never drops an
entry: the list holds at most three entries. -/
theorem missingProtectionsAll_take (t : List Char) :
    (missingProtectionsAll t).take 3 = missingProtectionsAll t := by
  apply List.take_of_length_le
  simp only [missingProtectionsAll]
  split_ifs <;> simp

/-- C9 fails on the code: the input `hello` lacks the severability,
amendment and integration keywords, yet the gap detector of `src/app.py`
produces exactly the governing-law and dispute entries — no severability
and no amendment entry — and the detector of `src/simple_gradio_app.py`
produces no severability or integration entry either. -/
theorem gap_groups_c9_counterexample :
    anyContains severabilityKeywords (lowerText helloInput) = false ∧
    anyContains amendmentKeywords (lowerText helloInput) = false ∧
    anyContains integrationKeywords (lowerText helloInput) = false ∧
    (missingProtectionsAll (lowerText helloInput)).map MissingProtection.element =
      [r"Governing Law Clause", r"Dispute Resolution Mechanism"] ∧
    detectedMissing (lowerText helloInput) =
      [r"Governing law clause", r"Dispute resolution mechanism",
       r"Contract amendment procedures"] := by
  decide

/-- C9 amended: the gap detector of `src/app.py` checks two unconditional
keyword groups — governing law and dispute resolution — plus the
conditional liability check, and the detector of
`src/simple_gradio_app.py` additionally checks the amendment group; each
absent group yields its one entry before truncation, and no other element
(in particular no severability or integration entry) is ever produced. -/
theorem gap_groups_c9_amended (t : List Char) :
    (anyContains govLawKeywords t = false →
      ({ element := "Governing Law Clause" } : MissingProtection) ∈
        missingProtectionsAll t) ∧
    (anyContains disputeKeywords t = false →
      ({ element := "Dispute Resolution Mechanism" } : MissingProtection) ∈
        missingProtectionsAll t) ∧
    (anyContains amendmentKeywords t = false →
      "Contract amendment procedures" ∈ detectedMissing t) ∧
    (∀ m ∈ missingProtectionsAll t,
      m.element = "Governing Law Clause" ∨
      m.element = "Dispute Resolution Mechanism" ∨
      m.element = "Liability Limitations") := by
  refine ⟨?_, ?_, ?_, ?_⟩
  · intro hg
    simp [missingProtectionsAll, hg]
  · intro hd
    simp [missingProtectionsAll, hd]
  · intro ha
    simp [detectedMissing, ha]
  · intro m hm
    simp only [missingProtectionsAll, List.mem_append] at hm
    rcases hm with (h | h) | h <;> split_ifs at h <;>
      simp_all

/-- Witness for C9 amended: the governing-law branch on the input
`hello`. -/
theorem gap_groups_c9_amended_witness :
    anyContains govLawKeywords (lowerText helloInput) = false ∧
    ({ element := "Governing Law Clause" } : MissingProtection) ∈
      missingProtectionsAll (lowerText helloInput) :=
  ⟨by decide, (gap_groups_c9_amended (lowerText helloInput)).1 (by decide)⟩

/-- C10: the Liability Limitations gap check is conditional on its trigger
word: the report's missingProtections contains a Liability Limitations
entry exactly when the lowered text contains `liability` and none of
`limit`, `cap`, `exclude`; in particular a text not containing `liability`
never produces the entry. -/
theorem liability_limitations_conditional_c10 (s : List Char)
    (h : isBlankText s = false) :
    ∃ r, analyze s = AnalysisResult.ok r ∧
      ((∃ m ∈ r.missingProtections, m.element = "Liability Limitations") ↔
        (containsSub liabilityWord (lowerText s) = true ∧
         anyContains limitKeywords (lowerText s) = false)) := by
  refine ⟨buildReport s, analyze_ok s h, ?_⟩
  show (∃ m ∈ (missingProtectionsAll (lowerText s)).take 3,
      m.element = "Liability Limitations") ↔ _
  rw [missingProtectionsAll_take]
  constructor
  · rintro ⟨m, hm, he⟩
    simp only [missingProtectionsAll, List.mem_append] at hm
    rcases hm with (h1 | h1) | h1
    · split_ifs at h1
      · simp at h1
      · rw [List.mem_singleton] at h1
        subst h1
        exact absurd he (by decide)
    · split_ifs at h1
      · simp at h1
      · rw [List.mem_singleton] at h1
        subst h1
        exact absurd he (by decide)
    · split_ifs at h1 with hc
      · rw [Bool.and_eq_true, Bool.not_eq_true'] at hc
        exact hc
      · simp at h1
  · rintro ⟨h1, h2⟩
    refine ⟨{ element := "Liability Limitations" }, ?_, rfl⟩
    simp [missingProtectionsAll, h1, h2]

/-- Witness for C10 at the concrete input `liability`. -/
theorem liability_limitations_conditional_c10_witness :
    isBlankText liabilityInput = false ∧
    ∃ r, analyze liabilityInput = AnalysisResult.ok r ∧
      ((∃ m ∈ r.missingProtections, m.element = "Liability Limitations") ↔
        (containsSub liabilityWord (lowerText liabilityInput) = true ∧
         anyContains limitKeywords (lowerText liabilityInput) = false)) :=
  ⟨by decide, liability_limitations_conditional_c10 liabilityInput (by decide)⟩

end ContractAnalyzer
